import Mathlib

/-!
Formal model of the statistical decision pipeline in
`src/hypothesis_testing.py` of the cycling data-analysis repository.

The code belonging to the repository is the branching and sequencing logic:
normality and variance-homogeneity checks, parametric versus
non-parametric test selection, Bonferroni-corrected post-hoc
comparisons, and stratified re-analysis.  The underlying numerical
routines (`scipy.stats.shapiro`, `anderson`, `levene`, `f_oneway`,
`kruskal`, `mannwhitneyu`, `statsmodels` `pairwise_tukeyhsd` and
`ols`/`anova_lm`) are external collaborators; they are modelled as an
oracle record `StatLib` whose fields have the same shapes as the
library calls, and the repository functions are translated faithfully
on top of it.  Floating-point scalars are modelled as exact rationals
extended with a NaN element (`FVal`), for which both strict
comparisons with any value are false, matching IEEE comparison
semantics used by the Python code.
-/

/-- A floating-point scalar: an exact rational, or the non-finite NaN
value (the model of `np.nan` and of non-finite entries; `np.isfinite`
is false exactly on the `nan` constructor). -/
inductive FVal where
  | num (q : ℚ)
  | nan
  deriving DecidableEq

/-- Strict less-than on float scalars: false whenever either side is
NaN, mirroring IEEE comparisons in Python. -/
def FVal.lt : FVal → FVal → Bool
  | .num a, .num b => decide (a < b)
  | _, _ => false

/-- Strict greater-than on float scalars: false whenever either side
is NaN, mirroring IEEE comparisons in Python. -/
def FVal.gt : FVal → FVal → Bool
  | .num a, .num b => decide (b < a)
  | _, _ => false

/-- `data[np.isfinite(data)]`: the finite entries of a sample, as
exact rationals. -/
def finiteQ (data : List FVal) : List ℚ :=
  data.filterMap fun v => match v with | .num q => some q | .nan => none

/-- The fixed significance threshold `alpha = 0.05` used by every call
site in the source (the `alpha=0.05` default argument, never
overridden). -/
def alpha05 : ℚ := 1 / 20

/-- One row of the loaded data frame: the numeric response `points`
and the two categorical factors. -/
structure Obs where
  points : FVal
  rider_class : String
  stage_class : String
  deriving DecidableEq

/-- The three statistic/p-value pairs of the Type II two-way ANOVA
table produced by `anova_lm(ols(...).fit(), typ=2)`: interaction
effect, main effect of `rider_class`, main effect of `stage_class`. -/
structure TwoWayTable where
  interaction_F : FVal
  interaction_p : FVal
  rider_F : FVal
  rider_p : FVal
  stage_F : FVal
  stage_p : FVal
  deriving DecidableEq

/-- One row of the `pairwise_tukeyhsd` result table. -/
structure TukeyRow where
  group1 : String
  group2 : String
  meandiff : FVal
  p_adj : FVal
  reject : Bool
  deriving DecidableEq

/-- The external statistical routines used by
`src/hypothesis_testing.py`, abstracted as an oracle.  `shapiro`
receives the finite-filtered sample; `anderson` receives the raw
sample and yields a statistic together with (significance level,
critical value) pairs in the library order; `mannwhitneyu` models the
two-sided call; `anova_lm_typ2` models the composite
the `ols` fit of the formula regressing points on both factors and
their interaction, followed by `anova_lm(..., typ=2)`. -/
structure StatLib where
  shapiro : List ℚ → FVal × FVal
  anderson : List FVal → FVal × List (ℚ × ℚ)
  levene : List (List FVal) → FVal × FVal
  f_oneway : List (List FVal) → FVal × FVal
  kruskal : List (List FVal) → FVal × FVal
  mannwhitneyu : List FVal → List FVal → FVal × FVal
  pairwise_tukeyhsd : List (FVal × String) → List TukeyRow
  anova_lm_typ2 : List Obs → TwoWayTable

/-- The dictionary returned by `test_normality`: the Shapiro-Wilk
branch carries a p-value and no critical value, the Anderson-Darling
branch carries a critical value and a null p-value. -/
structure NormVerdict where
  test : String
  statistic : FVal
  p_value : Option FVal
  critical_value : Option ℚ
  is_normal : Bool
  alpha : ℚ
  deriving DecidableEq

/-- The dictionary returned by `test_variance_homogeneity`. -/
structure VarVerdict where
  test : String
  statistic : FVal
  p_value : FVal
  equal_variances : Bool
  alpha : ℚ
  deriving DecidableEq

/-- Embeds `test_normality` (src/hypothesis_testing.py lines 46-87).
Samples longer than 5000 go to Anderson-Darling on the raw data, with
`is_normal = statistic < critical_values[-1]` and a null p-value;
otherwise non-finite values are removed, fewer than 3 finite values
yield `None`, and otherwise Shapiro-Wilk is run on the cleaned sample
with `is_normal = p_value > alpha`. -/
def test_normality (lib : StatLib) (data : List FVal) (alpha : ℚ) :
    Option NormVerdict :=
  if data.length > 5000 then
    let result := lib.anderson data
    let cv := (result.2.map Prod.snd).getLastD 0
    some { test := "Anderson-Darling"
           statistic := result.1
           p_value := none
           critical_value := some cv
           is_normal := FVal.lt result.1 (.num cv)
           alpha := alpha }
  else
    let data_clean := finiteQ data
    if data_clean.length < 3 then none
    else
      let r := lib.shapiro data_clean
      some { test := "Shapiro-Wilk"
             statistic := r.1
             p_value := some r.2
             critical_value := none
             is_normal := FVal.gt r.2 (.num alpha)
             alpha := alpha }

/-- Embeds `test_variance_homogeneity` (src/hypothesis_testing.py
lines 90-113): a single Levene test across all groups, with
`equal_variances = p_value > alpha`. -/
def test_variance_homogeneity (lib : StatLib) (groups : List (List FVal))
    (alpha : ℚ) : VarVerdict :=
  let r := lib.levene groups
  { test := "Levene\x27s"
    statistic := r.1
    p_value := r.2
    equal_variances := FVal.gt r.2 (.num alpha)
    alpha := alpha }

/-- First-appearance-order distinct elements, the model of
`pandas.Series.unique`. -/
def uniqueLabels (xs : List String) : List String :=
  xs.foldl (fun acc x => if x ∈ acc then acc else acc ++ [x]) []

/-- The points column of the rows whose rider class is `cls`, over a record
list. -/
def groupFor (df : List Obs) (cls : String) : List FVal :=
  (df.filter fun o => o.rider_class == cls).map (·.points)

/-- The distinct rider classes of the frame, in first-appearance
order (line 127). -/
def riderClasses (df : List Obs) : List String :=
  uniqueLabels (df.map (·.rider_class))

/-- The distinct stage classes of the frame, in first-appearance
order (line 302). -/
def stageClasses (df : List Obs) : List String :=
  uniqueLabels (df.map (·.stage_class))

/-- One entry of the non-parametric post-hoc output (lines 234-240). -/
structure MWEntry where
  group1 : String
  group2 : String
  u_statistic : FVal
  p_value : FVal
  significant : Bool
  deriving DecidableEq

/-- All index pairs `(i, j)` with `i < j`, realised directly on the
list: for each element, its pairings with every later element, in the
order of the double loop at lines 230-231. -/
def pairsOf : List α → List (α × α)
  | [] => []
  | x :: xs => (xs.map fun y => (x, y)) ++ pairsOf xs

/-- `len(rider_classes) * (len(rider_classes) - 1) // 2` (line 224). -/
def numComparisons (k : ℕ) : ℕ := k * (k - 1) / 2

/-- Embeds the Mann-Whitney post-hoc loop with Bonferroni correction
(src/hypothesis_testing.py lines 224-240): one two-sided comparison
per unordered pair in first-appearance order, each marked significant
iff its raw p-value is strictly below `0.05 / numComparisons`. -/
def posthocMW (lib : StatLib) (gs : List (String × List FVal)) :
    List MWEntry :=
  let bonferroni_alpha : ℚ := alpha05 / (numComparisons gs.length : ℚ)
  (pairsOf gs).map fun p =>
    let r := lib.mannwhitneyu p.1.2 p.2.2
    { group1 := p.1.1
      group2 := p.2.1
      u_statistic := r.1
      p_value := r.2
      significant := FVal.lt r.2 (.num bonferroni_alpha) }

/-- The flattened `(points, label)` rows fed to `pairwise_tukeyhsd`
(lines 186-193). -/
def tukeyInput (gs : List (String × List FVal)) : List (FVal × String) :=
  (gs.map fun p => p.2.map fun x => (x, p.1)).flatten

/-- Which post-hoc procedure was executed on the significant path. -/
inductive PosthocOut where
  | tukey (rows : List TukeyRow)
  | mw (entries : List MWEntry)
  deriving DecidableEq

/-- The data returned (and, for the post-hoc part, computed and
printed) by `research_question_1`. -/
structure RQ1Result where
  test : String
  statistic : FVal
  p_value : FVal
  significant : Bool
  posthoc : Option PosthocOut
  deriving DecidableEq

/-- The per-group normality verdicts that line 141 collects into
`normality_results`, keyed by class label; groups whose check returns
`None` are absent. -/
def normalityResults (lib : StatLib) (gs : List (String × List FVal)) :
    List (String × NormVerdict) :=
  gs.filterMap fun p => (test_normality lib p.2 alpha05).map fun v => (p.1, v)

/-- Line 161: the all-normal aggregate, `all` of the collected
`is_normal` fields when `normality_results` is non-empty and `False`
when it is empty. -/
def rq1AllNormal (lib : StatLib) (gs : List (String × List FVal)) : Bool :=
  let nr := normalityResults lib gs
  if nr.isEmpty then false else nr.all fun p => p.2.is_normal

/-- Embeds the one-way decision sequence of `research_question_1`
(src/hypothesis_testing.py lines 137-255) on an ordered label-to-sample
mapping: collect the available normality verdicts, run Levene across
all groups, take one-way ANOVA iff the aggregate normality judgment
and the variance-homogeneity verdict both hold and Kruskal-Wallis
otherwise, and on a significant result run the matching post-hoc
procedure (Tukey HSD on the parametric path, Bonferroni-corrected
Mann-Whitney on the non-parametric path). -/
def oneWayCore (lib : StatLib) (gs : List (String × List FVal)) : RQ1Result :=
  let all_normal := rq1AllNormal lib gs
  let variance_test := test_variance_homogeneity lib (gs.map Prod.snd) alpha05
  if all_normal && variance_test.equal_variances then
    let r := lib.f_oneway (gs.map Prod.snd)
    { test := "ANOVA"
      statistic := r.1
      p_value := r.2
      significant := FVal.lt r.2 (.num alpha05)
      posthoc :=
        if FVal.lt r.2 (.num alpha05) then
          some (.tukey (lib.pairwise_tukeyhsd (tukeyInput gs)))
        else none }
  else
    let r := lib.kruskal (gs.map Prod.snd)
    { test := "Kruskal-Wallis"
      statistic := r.1
      p_value := r.2
      significant := FVal.lt r.2 (.num alpha05)
      posthoc :=
        if FVal.lt r.2 (.num alpha05) then some (.mw (posthocMW lib gs))
        else none }

/-- Embeds `research_question_1` (src/hypothesis_testing.py lines
116-255): build the group set over `rider_class` in first-appearance
order and run the one-way decision sequence. -/
def research_question_1 (lib : StatLib) (df : List Obs) : RQ1Result :=
  oneWayCore lib ((riderClasses df).map fun cls => (cls, groupFor df cls))

/-- The per-stratum dictionary stored in `stage_results`
(lines 334-339). -/
structure StageResult where
  test : String
  statistic : FVal
  p_value : FVal
  significant : Bool
  deriving DecidableEq

/-- Embeds the early-exit normality loop of `research_question_2`
(lines 315-320): `all_normal` starts true and becomes false on the
first group whose check returns a failing verdict; groups whose check
returns `None` leave it unchanged. -/
def rq2AllNormal (lib : StatLib) : List (List FVal) → Bool
  | [] => true
  | g :: rest =>
    match test_normality lib g alpha05 with
    | some v => if v.is_normal then rq2AllNormal lib rest else false
    | none => rq2AllNormal lib rest

/-- Embeds one iteration of the stratified loop of
`research_question_2` (src/hypothesis_testing.py lines 305-347):
filter to the stage class, rebuild the groups over `rider_class`,
re-run the assumption checks, and select ANOVA or Kruskal-Wallis.  No
post-hoc procedure is invoked here. -/
def rq2Stratum (lib : StatLib) (df : List Obs) (stage_cls : String) :
    StageResult :=
  let stage_df := df.filter fun o => o.stage_class == stage_cls
  let rcs := uniqueLabels (stage_df.map (·.rider_class))
  let groups := rcs.map fun cls => groupFor stage_df cls
  let all_normal := rq2AllNormal lib groups
  let variance_test := test_variance_homogeneity lib groups alpha05
  if all_normal && variance_test.equal_variances then
    let r := lib.f_oneway groups
    { test := "ANOVA"
      statistic := r.1
      p_value := r.2
      significant := FVal.lt r.2 (.num alpha05) }
  else
    let r := lib.kruskal groups
    { test := "Kruskal-Wallis"
      statistic := r.1
      p_value := r.2
      significant := FVal.lt r.2 (.num alpha05) }

/-- The data returned (and, for the stratified part, computed and
printed) by `research_question_2`; `stratified` is populated exactly
when the interaction branch at line 296 is taken. -/
structure RQ2Result where
  interaction_p : FVal
  rider_main_p : FVal
  stage_main_p : FVal
  anova_table : TwoWayTable
  stratified : Option (List (String × StageResult))
  deriving DecidableEq

/-- Embeds `research_question_2` (src/hypothesis_testing.py lines
258-368): fit the two-way Type II ANOVA unconditionally, extract the
three p-values, and when the interaction p-value is strictly below
0.05 analyse every stage class separately. -/
def research_question_2 (lib : StatLib) (df : List Obs) : RQ2Result :=
  let t := lib.anova_lm_typ2 df
  { interaction_p := t.interaction_p
    rider_main_p := t.rider_p
    stage_main_p := t.stage_p
    anova_table := t
    stratified :=
      if FVal.lt t.interaction_p (.num alpha05) then
        some ((stageClasses df).map fun s => (s, rq2Stratum lib df s))
      else none }

/-- A concrete oracle instance on which every assumption check
passes: all p-values are 1/2 and the interaction p-value is 1/100. -/
def passLib : StatLib where
  shapiro := fun _ => (.num 1, .num (1 / 2))
  anderson := fun _ => (.num 1, [(15 / 100, 1), (1 / 20, 2), (1 / 100, 3)])
  levene := fun _ => (.num 1, .num (1 / 2))
  f_oneway := fun _ => (.num 1, .num (1 / 2))
  kruskal := fun _ => (.num 1, .num (1 / 2))
  mannwhitneyu := fun _ _ => (.num 1, .num (1 / 2))
  pairwise_tukeyhsd := fun _ => []
  anova_lm_typ2 := fun _ =>
    { interaction_F := .num 1, interaction_p := .num (1 / 100)
      rider_F := .num 1, rider_p := .num (1 / 2)
      stage_F := .num 1, stage_p := .num (1 / 2) }

/-- An oracle differing from `passLib` only in a failing Levene
p-value. -/
def failLib : StatLib :=
  { passLib with levene := fun _ => (.num 1, .num (1 / 100)) }

/-- Models the external Levene routine on the degenerate input of two
zero-variance groups with distinct means: the underlying statistic is
0/0, which the floating-point routine returns as NaN for both the
statistic and the p-value (the repository suppresses the numpy
warning and performs no error handling). -/
def nanLib : StatLib :=
  { passLib with levene := fun _ => (.nan, .nan) }

/-- The group set over the second factor within one stratum: filter
the frame to the stage class, then pair each first-appearance rider
class with its sample, exactly the data `rq2Stratum` computes at lines
310-312. -/
def stratumGroups (df : List Obs) (stage_cls : String) :
    List (String × List FVal) :=
  let stage_df := df.filter fun o => o.stage_class == stage_cls
  (uniqueLabels (stage_df.map (·.rider_class))).map fun cls =>
    (cls, groupFor stage_df cls)

/-- The total number of observations across all groups, as a
rational. -/
def groupsTotalLen (groups : List (List ℚ)) : ℚ :=
  ((groups.map List.length).sum : ℕ)

/-- The total of all observations across all groups. -/
def groupsTotalSum (groups : List (List ℚ)) : ℚ :=
  (groups.map List.sum).sum

/-- The grand mean of the pooled observations. -/
def grandMean (groups : List (List ℚ)) : ℚ :=
  groupsTotalSum groups / groupsTotalLen groups

/-- The between-group sum-of-squares contribution of one group
around the grand mean `m`. -/
def groupSSB (m : ℚ) (g : List ℚ) : ℚ :=
  (g.length : ℚ) * ((g.sum / (g.length : ℚ)) - m) ^ 2

/-- The within-group sum of squares of one group around its own
mean. -/
def groupSSW (g : List ℚ) : ℚ :=
  (g.map fun x => (x - g.sum / (g.length : ℚ)) ^ 2).sum

/-- The classical one-way F statistic over exact rationals: the
between-group mean square over the within-group mean square.  This is
a concrete, group-order-invariant model of the statistic computed by
the external `f_oneway` routine, used to instantiate the oracle
non-trivially when discharging the invariance hypotheses of the C9
theorem. -/
def fStatModel (groups : List (List ℚ)) : ℚ :=
  ((groups.map (groupSSB (grandMean groups))).sum /
      ((groups.length : ℚ) - 1)) /
    ((groups.map groupSSW).sum /
      (groupsTotalLen groups - (groups.length : ℚ)))

/-- An oracle whose one-way routine computes the concrete rational F
statistic on the finite values of the groups and which otherwise
agrees with `passLib`. -/
def fLib : StatLib :=
  { passLib with
    f_oneway := fun groups =>
      (.num (fStatModel (groups.map finiteQ)), .num (1 / 2)) }

/- ### General lemmas about the embedded operations -/

theorem oneWayCore_test (lib : StatLib) (gs : List (String × List FVal)) :
    (oneWayCore lib gs).test =
      if rq1AllNormal lib gs &&
          (test_variance_homogeneity lib (gs.map Prod.snd)
            alpha05).equal_variances
      then "ANOVA" else "Kruskal-Wallis" := by
  simp only [oneWayCore]
  split <;> rfl

theorem oneWayCore_stat_p (lib : StatLib) (gs : List (String × List FVal)) :
    ((oneWayCore lib gs).statistic, (oneWayCore lib gs).p_value) =
      if rq1AllNormal lib gs &&
          (test_variance_homogeneity lib (gs.map Prod.snd)
            alpha05).equal_variances
      then lib.f_oneway (gs.map Prod.snd)
      else lib.kruskal (gs.map Prod.snd) := by
  simp only [oneWayCore]
  split <;> rfl

theorem oneWayCore_significant (lib : StatLib)
    (gs : List (String × List FVal)) :
    (oneWayCore lib gs).significant =
      FVal.lt (oneWayCore lib gs).p_value (.num alpha05) := by
  simp only [oneWayCore]
  split <;> rfl

theorem rq1AllNormal_iff (lib : StatLib) (gs : List (String × List FVal)) :
    rq1AllNormal lib gs = true ↔
      ((normalityResults lib gs).isEmpty = false ∧
        ∀ p ∈ normalityResults lib gs, p.2.is_normal = true) := by
  unfold rq1AllNormal
  rcases h : (normalityResults lib gs).isEmpty with _ | _ <;>
    simp_all [List.all_eq_true]

theorem rq2AllNormal_eq_all (lib : StatLib) (groups : List (List FVal)) :
    rq2AllNormal lib groups =
      groups.all fun g =>
        ((test_normality lib g alpha05).map NormVerdict.is_normal).getD
          true := by
  induction groups with
  | nil => rfl
  | cons g rest ih =>
    rcases h : test_normality lib g alpha05 with _ | v
    · simp [rq2AllNormal, h, ih]
    · rcases hv : v.is_normal with _ | _ <;> simp [rq2AllNormal, h, hv, ih]

theorem normalityResults_all_eq (lib : StatLib)
    (gs : List (String × List FVal)) :
    ((normalityResults lib gs).all fun p => p.2.is_normal) =
      gs.all fun p =>
        ((test_normality lib p.2 alpha05).map NormVerdict.is_normal).getD
          true := by
  induction gs with
  | nil => rfl
  | cons a t ih =>
    simp only [normalityResults, List.filterMap_cons] at ih ⊢
    rcases h : test_normality lib a.2 alpha05 with _ | v <;> simp [h, ih]

theorem perm_all_eq {α : Type _} {l₁ l₂ : List α} (h : l₁.Perm l₂)
    (p : α → Bool) : l₁.all p = l₂.all p := by
  induction h with
  | nil => rfl
  | cons x h ih => simp [ih]
  | swap x y l => simp [Bool.and_left_comm]
  | trans h₁ h₂ ih₁ ih₂ => rw [ih₁, ih₂]

theorem perm_isEmpty_eq {α : Type _} {l₁ l₂ : List α} (h : l₁.Perm l₂) :
    l₁.isEmpty = l₂.isEmpty := by
  have := h.length_eq
  cases l₁ <;> cases l₂ <;> simp_all

theorem pairsOf_map_perm {α β : Type _} (g : α → α → β)
    (hg : ∀ a b, g a b = g b a) {l₁ l₂ : List α} (h : l₁.Perm l₂) :
    ((pairsOf l₁).map fun p => g p.1 p.2).Perm
      ((pairsOf l₂).map fun p => g p.1 p.2) := by
  induction h with
  | nil => exact List.Perm.refl _
  | cons x h ih =>
    simp only [pairsOf, List.map_append, List.map_map, Function.comp_def]
    exact (h.map fun y => g x y).append ih
  | swap x y l =>
    simp only [pairsOf, List.map_append, List.map_map, List.map_cons,
      List.cons_append, Function.comp_def, List.append_assoc]
    rw [hg y x]
    exact (List.perm_append_comm_assoc _ _ _).cons _
  | trans h₁ h₂ ih₁ ih₂ => exact ih₁.trans ih₂

theorem pairsOf_length_mul_two {α : Type _} (l : List α) :
    2 * (pairsOf l).length = l.length * (l.length - 1) := by
  induction l with
  | nil => rfl
  | cons x xs ih =>
    have h : (pairsOf (x :: xs)).length =
        xs.length + (pairsOf xs).length := by
      simp [pairsOf]
    rw [h, Nat.mul_add, ih, List.length_cons]
    cases xs.length with
    | zero => rfl
    | succ m => simp [Nat.succ_sub_one]; ring

theorem posthocMW_length (lib : StatLib) (gs : List (String × List FVal)) :
    (posthocMW lib gs).length = numComparisons gs.length := by
  have h := pairsOf_length_mul_two gs
  have hl : (posthocMW lib gs).length = (pairsOf gs).length := by
    simp [posthocMW]
  unfold numComparisons
  omega

theorem numComparisons_cast (k : ℕ) (hk : 2 ≤ k) :
    (numComparisons k : ℚ) = (k : ℚ) * ((k : ℚ) - 1) / 2 := by
  have hev : Even (k * (k - 1)) := by
    obtain ⟨m, rfl⟩ : ∃ m, k = m + 1 := ⟨k - 1, by omega⟩
    simpa [Nat.mul_comm] using Nat.even_mul_succ_self m
  obtain ⟨r, hr⟩ := hev
  have h2 : 2 * numComparisons k = k * (k - 1) := by
    unfold numComparisons
    omega
  have hc : ((2 * numComparisons k : ℕ) : ℚ) = ((k * (k - 1) : ℕ) : ℚ) := by
    exact_mod_cast congrArg (Nat.cast : ℕ → ℚ) h2
  have h1 : (1 : ℕ) ≤ k := by omega
  push_cast [Nat.cast_sub h1] at hc
  linarith

theorem getLastD_map_snd (l : List (ℚ × ℚ)) (h : l ≠ []) :
    (l.map Prod.snd).getLastD 0 = (l.getLast h).2 := by
  rw [List.getLastD_eq_getLast?, List.getLast?_map,
    List.getLast?_eq_getLast l h, Option.map_some', Option.getD_some]

theorem getLast_fst_min (l : List (ℚ × ℚ)) (h : l ≠ [])
    (hs : l.Pairwise fun a b => b.1 < a.1) :
    ∀ q ∈ l, (l.getLast h).1 ≤ q.1 := by
  induction l with
  | nil => exact absurd rfl h
  | cons a t ih =>
    intro q hq
    cases t with
    | nil =>
      rcases List.mem_singleton.mp hq with rfl
      exact le_refl _
    | cons b t2 =>
      rw [List.getLast_cons (by simp : (b :: t2) ≠ [])]
      rcases List.mem_cons.mp hq with rfl | hq2
      · have hmem := List.getLast_mem (by simp : (b :: t2) ≠ [])
        have := (List.pairwise_cons.mp hs).1 _ hmem
        exact le_of_lt this
      · exact ih (by simp) (List.pairwise_cons.mp hs).2 q hq2

/-- C5: the two-way analysis always fits the parametric Type II
linear model: `research_question_2` extracts its three p-values and
the full table from the single unconditional `anova_lm_typ2` fit, and
the returned main results are unchanged under any modification of the
assumption-checking and one-way oracles (no assumption-check outcome
selects a different two-way test; there is no non-parametric
fallback). -/
theorem c5_two_way_always_parametric (lib lib2 : StatLib) (df : List Obs)
    (h : lib.anova_lm_typ2 = lib2.anova_lm_typ2) :
    (research_question_2 lib df).anova_table = lib.anova_lm_typ2 df ∧
    (research_question_2 lib df).interaction_p =
      (lib.anova_lm_typ2 df).interaction_p ∧
    (research_question_2 lib df).rider_main_p =
      (lib.anova_lm_typ2 df).rider_p ∧
    (research_question_2 lib df).stage_main_p =
      (lib.anova_lm_typ2 df).stage_p ∧
    ((research_question_2 lib df).interaction_p,
      (research_question_2 lib df).rider_main_p,
      (research_question_2 lib df).stage_main_p,
      (research_question_2 lib df).anova_table) =
    ((research_question_2 lib2 df).interaction_p,
      (research_question_2 lib2 df).rider_main_p,
      (research_question_2 lib2 df).stage_main_p,
      (research_question_2 lib2 df).anova_table) := by
  refine ⟨rfl, rfl, rfl, rfl, ?_⟩
  simp [research_question_2, h]

theorem c5_witness :
    ((research_question_2 passLib []).interaction_p,
      (research_question_2 passLib []).rider_main_p,
      (research_question_2 passLib []).stage_main_p,
      (research_question_2 passLib []).anova_table) =
    ((research_question_2 failLib []).interaction_p,
      (research_question_2 failLib []).rider_main_p,
      (research_question_2 failLib []).stage_main_p,
      (research_question_2 failLib []).anova_table) :=
  (c5_two_way_always_parametric passLib failLib [] rfl).2.2.2.2

/-- C6: a sample longer than 5000 takes the Anderson-Darling path:
the verdict has a null p-value and carries the critical value paired
with the strictest (smallest) significance level whenever the
library output lists its (level, critical value) pairs in decreasing
level order, and the sample is declared normal iff the statistic is
strictly below that critical value; a sample of length at most 5000
takes the Shapiro-Wilk path instead. -/
theorem c6_large_sample_path (lib : StatLib) (data : List FVal)
    (hlen : 5000 < data.length)
    (hne : (lib.anderson data).2 ≠ [])
    (hsorted : (lib.anderson data).2.Pairwise fun a b => b.1 < a.1) :
    (∃ v, test_normality lib data alpha05 = some v ∧
      v.test = "Anderson-Darling" ∧
      v.p_value = none ∧
      v.statistic = (lib.anderson data).1 ∧
      ∃ pr ∈ (lib.anderson data).2,
        v.critical_value = some pr.2 ∧
        (∀ q ∈ (lib.anderson data).2, pr.1 ≤ q.1) ∧
        v.is_normal = FVal.lt (lib.anderson data).1 (.num pr.2)) ∧
    (∀ small : List FVal, small.length ≤ 5000 →
      ∀ w, test_normality lib small alpha05 = some w →
        w.test = "Shapiro-Wilk") := by
  constructor
  · have hsome : test_normality lib data alpha05 =
        some { test := "Anderson-Darling"
               statistic := (lib.anderson data).1
               p_value := none
               critical_value :=
                 some (((lib.anderson data).2.map Prod.snd).getLastD 0)
               is_normal := FVal.lt (lib.anderson data).1
                 (.num (((lib.anderson data).2.map Prod.snd).getLastD 0))
               alpha := alpha05 } := by
      simp only [test_normality]
      rw [if_pos hlen]
    refine ⟨_, hsome, rfl, rfl, rfl, ?_⟩
    refine ⟨(lib.anderson data).2.getLast hne, List.getLast_mem hne, ?_, ?_, ?_⟩
    · exact congrArg some (getLastD_map_snd _ hne)
    · exact getLast_fst_min _ hne hsorted
    · rw [getLastD_map_snd _ hne]
  · intro small hsmall w hw
    simp only [test_normality] at hw
    rw [if_neg (by omega)] at hw
    by_cases h3 : (finiteQ small).length < 3
    · rw [if_pos h3] at hw
      cases hw
    · rw [if_neg h3] at hw
      cases hw
      rfl

theorem c6_witness :
    ∃ v, test_normality passLib (List.replicate 5001 (FVal.num 0)) alpha05 =
        some v ∧ v.test = "Anderson-Darling" ∧ v.p_value = none := by
  obtain ⟨⟨v, hv, ht, hp, -⟩, -⟩ :=
    c6_large_sample_path passLib (List.replicate 5001 (FVal.num 0))
      (by rw [List.length_replicate]; norm_num)
      (by simp only [passLib]; simp)
      (by simp only [passLib]; norm_num [List.pairwise_cons])
  exact ⟨v, hv, ht, hp⟩

/-- C7: on a sample of length at most 5000, `test_normality` first
keeps only the finite values and returns no verdict exactly when
fewer than 3 finite values remain; when a verdict is produced it is
the Shapiro-Wilk verdict on the cleaned sample.  The
variance-homogeneity computation and the main-test selection have no
minimum-size gate: they apply the library routines to the given
groups unconditionally, accepting groups of only 2 values. -/
theorem c7_small_sample_min3 (lib : StatLib) (data : List FVal)
    (hlen : data.length ≤ 5000) :
    (test_normality lib data alpha05 = none ↔ (finiteQ data).length < 3) ∧
    (∀ v, test_normality lib data alpha05 = some v →
      v.test = "Shapiro-Wilk" ∧
      v.statistic = (lib.shapiro (finiteQ data)).1 ∧
      v.p_value = some (lib.shapiro (finiteQ data)).2) ∧
    (∀ groups : List (List FVal),
      (test_variance_homogeneity lib groups alpha05).statistic =
        (lib.levene groups).1 ∧
      (test_variance_homogeneity lib groups alpha05).p_value =
        (lib.levene groups).2) ∧
    (∀ gs : List (String × List FVal),
      (oneWayCore lib gs).p_value = (lib.f_oneway (gs.map Prod.snd)).2 ∨
      (oneWayCore lib gs).p_value = (lib.kruskal (gs.map Prod.snd)).2) := by
  refine ⟨?_, ?_, fun groups => ⟨rfl, rfl⟩, fun gs => ?_⟩
  · simp only [test_normality]
    rw [if_neg (by omega)]
    by_cases h3 : (finiteQ data).length < 3
    · rw [if_pos h3]
      simpa using h3
    · rw [if_neg h3]
      simpa using h3
  · intro v hv
    simp only [test_normality] at hv
    rw [if_neg (by omega)] at hv
    by_cases h3 : (finiteQ data).length < 3
    · rw [if_pos h3] at hv
      cases hv
    · rw [if_neg h3] at hv
      cases hv
      exact ⟨rfl, rfl, rfl⟩
  · simp only [oneWayCore]
    split
    · exact Or.inl rfl
    · exact Or.inr rfl

theorem c7_witness :
    test_normality passLib [.num 1, .nan, .num 2] alpha05 = none :=
  (c7_small_sample_min3 passLib [.num 1, .nan, .num 2] (by norm_num)).1.mpr
    (by norm_num [finiteQ, List.filterMap_cons, List.filterMap_nil])

/-- C10: on a sample longer than 5000, `test_normality` always
returns a verdict, built by applying the Anderson-Darling routine to
the raw, unfiltered sample; the finite-value filter and the
minimum-of-3 check belong only to the small-sample branch, so the
insufficient-data outcome `none` cannot occur. -/
theorem c10_large_sample_total (lib : StatLib) (data : List FVal)
    (hlen : 5000 < data.length) :
    test_normality lib data alpha05 =
      some { test := "Anderson-Darling"
             statistic := (lib.anderson data).1
             p_value := none
             critical_value :=
               some (((lib.anderson data).2.map Prod.snd).getLastD 0)
             is_normal := FVal.lt (lib.anderson data).1
               (.num (((lib.anderson data).2.map Prod.snd).getLastD 0))
             alpha := alpha05 } ∧
    test_normality lib data alpha05 ≠ none := by
  have hsome : test_normality lib data alpha05 =
      some { test := "Anderson-Darling"
             statistic := (lib.anderson data).1
             p_value := none
             critical_value :=
               some (((lib.anderson data).2.map Prod.snd).getLastD 0)
             is_normal := FVal.lt (lib.anderson data).1
               (.num (((lib.anderson data).2.map Prod.snd).getLastD 0))
             alpha := alpha05 } := by
    simp only [test_normality]
    rw [if_pos hlen]
  refine ⟨hsome, ?_⟩
  rw [hsome]
  exact Option.some_ne_none _

theorem c10_witness :
    test_normality passLib (List.replicate 5001 FVal.nan) alpha05 ≠ none :=
  (c10_large_sample_total passLib (List.replicate 5001 FVal.nan)
    (by rw [List.length_replicate]; norm_num)).2

theorem oneWayCore_statistic (lib : StatLib) (gs : List (String × List FVal)) :
    (oneWayCore lib gs).statistic =
      if rq1AllNormal lib gs &&
          (test_variance_homogeneity lib (gs.map Prod.snd)
            alpha05).equal_variances
      then (lib.f_oneway (gs.map Prod.snd)).1
      else (lib.kruskal (gs.map Prod.snd)).1 := by
  simp only [oneWayCore]
  split <;> rfl

theorem oneWayCore_p_value (lib : StatLib) (gs : List (String × List FVal)) :
    (oneWayCore lib gs).p_value =
      if rq1AllNormal lib gs &&
          (test_variance_homogeneity lib (gs.map Prod.snd)
            alpha05).equal_variances
      then (lib.f_oneway (gs.map Prod.snd)).2
      else (lib.kruskal (gs.map Prod.snd)).2 := by
  simp only [oneWayCore]
  split <;> rfl

theorem test_normality_pass_rule (lib : StatLib) (d : List FVal) (alpha : ℚ)
    (v : NormVerdict) (h : test_normality lib d alpha = some v) :
    ∀ q, v.p_value = some q → v.is_normal = FVal.gt q (.num alpha) := by
  simp only [test_normality] at h
  by_cases hl : d.length > 5000
  · rw [if_pos hl] at h
    cases h
    intro q hq
    cases hq
  · rw [if_neg hl] at h
    by_cases h3 : (finiteQ d).length < 3
    · rw [if_pos h3] at h
      cases h
    · rw [if_neg h3] at h
      cases h
      intro q hq
      cases hq
      rfl

theorem posthocMW_pvalues_eq (lib : StatLib)
    (gs : List (String × List FVal)) :
    ((posthocMW lib gs).map fun e => e.p_value) =
      (pairsOf gs).map fun p => (lib.mannwhitneyu p.1.2 p.2.2).2 := by
  simp [posthocMW, List.map_map]

/-- C3: the non-parametric post-hoc run over `k` groups performs
exactly `k*(k-1)/2` two-sided Mann-Whitney comparisons, one per
unordered pair in first-appearance order; the Bonferroni-corrected
alpha is `0.05` divided by `k*(k-1)/2`, and an entry is significant
iff its raw p-value is strictly below that corrected alpha (the
significance flag is never a comparison with the uncorrected 0.05). -/
theorem c3_posthoc_bonferroni (lib : StatLib)
    (gs : List (String × List FVal)) (hk : 2 ≤ gs.length) :
    (posthocMW lib gs).length = gs.length * (gs.length - 1) / 2 ∧
    alpha05 / (numComparisons gs.length : ℚ) =
      alpha05 / ((gs.length : ℚ) * ((gs.length : ℚ) - 1) / 2) ∧
    (∀ e ∈ posthocMW lib gs,
      e.significant =
        FVal.lt e.p_value
          (.num (alpha05 / (numComparisons gs.length : ℚ)))) ∧
    ((posthocMW lib gs).map fun e => (e.group1, e.group2)) =
      ((pairsOf gs).map fun p => (p.1.1, p.2.1)) ∧
    ((posthocMW lib gs).map fun e => e.p_value) =
      ((pairsOf gs).map fun p => (lib.mannwhitneyu p.1.2 p.2.2).2) := by
  refine ⟨?_, ?_, ?_, ?_, posthocMW_pvalues_eq lib gs⟩
  · rw [posthocMW_length]
    rfl
  · rw [numComparisons_cast _ hk]
  · intro e he
    simp only [posthocMW, List.mem_map] at he
    obtain ⟨p, hp, rfl⟩ := he
    rfl
  · simp [posthocMW, List.map_map]

theorem c3_witness :
    (posthocMW passLib
      [("A", [.num 1]), ("B", [.num 2]), ("C", [.num 3])]).length = 3 :=
  (c3_posthoc_bonferroni passLib
    [("A", [.num 1]), ("B", [.num 2]), ("C", [.num 3])] (by norm_num)).1

/-- C1 (amended): with at least 2 groups, the one-way selection runs
the one-way ANOVA iff at least one per-group normality verdict is
available, every available verdict passes, and the Levene verdict
passes; otherwise it runs Kruskal-Wallis.  The statistic and p-value
of the selected test come from the corresponding library routine, a
Shapiro verdict passes iff its p-value is strictly greater than
alpha = 0.05, the Levene verdict passes iff its p-value is strictly
greater than 0.05, the result is significant iff its p-value is
strictly below 0.05, and a p-value exactly equal to 0.05 passes
neither comparison. -/
theorem c1_one_way_selection (lib : StatLib)
    (gs : List (String × List FVal)) (hk : 2 ≤ gs.length) :
    ((oneWayCore lib gs).test = "ANOVA" ↔
      ((normalityResults lib gs).isEmpty = false ∧
        (∀ p ∈ normalityResults lib gs, p.2.is_normal = true) ∧
        (test_variance_homogeneity lib (gs.map Prod.snd)
          alpha05).equal_variances = true)) ∧
    ((oneWayCore lib gs).test = "ANOVA" ∨
      (oneWayCore lib gs).test = "Kruskal-Wallis") ∧
    ((oneWayCore lib gs).test = "ANOVA" →
      ((oneWayCore lib gs).statistic, (oneWayCore lib gs).p_value) =
        lib.f_oneway (gs.map Prod.snd)) ∧
    ((oneWayCore lib gs).test = "Kruskal-Wallis" →
      ((oneWayCore lib gs).statistic, (oneWayCore lib gs).p_value) =
        lib.kruskal (gs.map Prod.snd)) ∧
    ((oneWayCore lib gs).significant =
      FVal.lt (oneWayCore lib gs).p_value (.num alpha05)) ∧
    (∀ p ∈ normalityResults lib gs, ∀ q, p.2.p_value = some q →
      p.2.is_normal = FVal.gt q (.num alpha05)) ∧
    ((test_variance_homogeneity lib (gs.map Prod.snd)
        alpha05).equal_variances =
      FVal.gt (lib.levene (gs.map Prod.snd)).2 (.num alpha05)) ∧
    FVal.gt (.num alpha05) (.num alpha05) = false ∧
    FVal.lt (.num alpha05) (.num alpha05) = false ∧
    (∀ df : List Obs, research_question_1 lib df =
      oneWayCore lib ((riderClasses df).map fun cls =>
        (cls, groupFor df cls))) := by
  have hiff := rq1AllNormal_iff lib gs
  refine ⟨?_, ?_, ?_, ?_, oneWayCore_significant lib gs, ?_, rfl, ?_, ?_,
    fun df => rfl⟩
  · rw [oneWayCore_test]
    rcases hA : rq1AllNormal lib gs with _ | _ <;>
      rcases hV : (test_variance_homogeneity lib (gs.map Prod.snd)
          alpha05).equal_variances with _ | _ <;>
      simp_all <;> tauto
  · rw [oneWayCore_test]
    rcases hc : (rq1AllNormal lib gs &&
        (test_variance_homogeneity lib (gs.map Prod.snd)
          alpha05).equal_variances) with _ | _ <;> simp
  · intro h
    rw [oneWayCore_test] at h
    rw [oneWayCore_statistic, oneWayCore_p_value]
    rcases hc : (rq1AllNormal lib gs &&
        (test_variance_homogeneity lib (gs.map Prod.snd)
          alpha05).equal_variances) with _ | _
    · rw [hc] at h
      simp at h
    · simp [hc]
  · intro h
    rw [oneWayCore_test] at h
    rw [oneWayCore_statistic, oneWayCore_p_value]
    rcases hc : (rq1AllNormal lib gs &&
        (test_variance_homogeneity lib (gs.map Prod.snd)
          alpha05).equal_variances) with _ | _
    · simp [hc]
    · rw [hc] at h
      simp at h
  · intro p hp q hq
    obtain ⟨a, ha, heq⟩ := List.mem_filterMap.mp hp
    obtain ⟨v, hv, hpv⟩ := Option.map_eq_some'.mp heq
    have : p.2 = v := by rw [← hpv]
    rw [this] at hq ⊢
    exact test_normality_pass_rule lib a.2 alpha05 v hv q hq
  · simp [FVal.gt]
  · simp [FVal.lt]

theorem c1_witness :
    (oneWayCore passLib
        [("A", [.num 1, .num 2, .num 3]),
         ("B", [.num 4, .num 5, .num 6])]).test = "ANOVA" ∨
    (oneWayCore passLib
        [("A", [.num 1, .num 2, .num 3]),
         ("B", [.num 4, .num 5, .num 6])]).test = "Kruskal-Wallis" :=
  (c1_one_way_selection passLib
    [("A", [.num 1, .num 2, .num 3]), ("B", [.num 4, .num 5, .num 6])]
    (by norm_num)).2.1

/-- C1 counterexample: a group set of two groups of 2 finite values
each, so that no normality verdict is available at all; every
available verdict passes vacuously and the Levene verdict passes, yet
the code runs Kruskal-Wallis, not the one-way ANOVA, because the
empty verdict collection makes the all-normal aggregate `False`. -/
theorem c1_counterexample :
    normalityResults passLib
      [("A", [.num 1, .num 2]), ("B", [.num 3, .num 4])] = [] ∧
    (test_variance_homogeneity passLib [[.num 1, .num 2], [.num 3, .num 4]]
      alpha05).equal_variances = true ∧
    (oneWayCore passLib
      [("A", [.num 1, .num 2]), ("B", [.num 3, .num 4])]).test =
      "Kruskal-Wallis" := by
  refine ⟨?_, ?_, ?_⟩
  · norm_num [normalityResults, test_normality, finiteQ, alpha05,
      List.filterMap_cons, List.filterMap_nil]
  · norm_num [test_variance_homogeneity, passLib, FVal.gt, alpha05]
  · norm_num [oneWayCore, rq1AllNormal, normalityResults, test_normality,
      test_variance_homogeneity, finiteQ, FVal.gt, FVal.lt, passLib, alpha05,
      List.filterMap_cons, List.filterMap_nil]

/-- C2 (amended): a group whose normality check yields no verdict is
skipped from the all-normal aggregate rather than forcing the
non-parametric path.  In `research_question_1`, if at least one
verdict is available, all available verdicts pass and the Levene
verdict passes, the parametric path is taken even when other groups
have unknown verdicts; in the per-stratum loop of
`research_question_2` the aggregate stays true whenever the verdict
of every group is unknown, so such a stratum is parametric-eligible. -/
theorem c2_unknown_normality_skipped (lib : StatLib)
    (gs : List (String × List FVal)) (groups : List (List FVal))
    (h1 : (normalityResults lib gs).isEmpty = false)
    (h2 : ∀ p ∈ normalityResults lib gs, p.2.is_normal = true)
    (h3 : (test_variance_homogeneity lib (gs.map Prod.snd)
      alpha05).equal_variances = true)
    (h4 : ∀ g ∈ groups, test_normality lib g alpha05 = none) :
    (oneWayCore lib gs).test = "ANOVA" ∧
    rq2AllNormal lib groups = true := by
  constructor
  · rw [oneWayCore_test]
    have hA : rq1AllNormal lib gs = true :=
      (rq1AllNormal_iff lib gs).mpr ⟨h1, h2⟩
    rw [hA, h3]
    rfl
  · rw [rq2AllNormal_eq_all]
    simp only [List.all_eq_true]
    intro g hg
    rw [h4 g hg]
    rfl

theorem c2_witness :
    (oneWayCore passLib
      [("A", [.num 1, .num 2]),
       ("B", [.num 3, .num 4, .num 5, .num 6])]).test = "ANOVA" ∧
    rq2AllNormal passLib [[.num 1, .num 2]] = true :=
  c2_unknown_normality_skipped passLib
    [("A", [.num 1, .num 2]), ("B", [.num 3, .num 4, .num 5, .num 6])]
    [[.num 1, .num 2]]
    (by norm_num [normalityResults, test_normality, finiteQ, alpha05,
      passLib, FVal.gt, List.filterMap_cons, List.filterMap_nil])
    (by norm_num [normalityResults, test_normality, finiteQ, alpha05,
      passLib, FVal.gt, List.filterMap_cons, List.filterMap_nil])
    (by norm_num [test_variance_homogeneity, passLib, FVal.gt, alpha05])
    (by norm_num [test_normality, finiteQ, alpha05,
      List.filterMap_cons, List.filterMap_nil])

/-- C2 counterexample: a two-group set in which group A yields no
normality verdict (2 finite values) while group B yields a passing
verdict; the code takes the parametric path (ANOVA) instead of
routing to Kruskal-Wallis, and the per-stratum aggregate of
`research_question_2` is even true for a group set in which every
verdict is unknown. -/
theorem c2_counterexample :
    test_normality passLib [.num 1, .num 2] alpha05 = none ∧
    (oneWayCore passLib
      [("A", [.num 1, .num 2]),
       ("B", [.num 3, .num 4, .num 5, .num 6])]).test = "ANOVA" ∧
    rq2AllNormal passLib [[.num 1, .num 2], [.num 3, .num 4]] = true := by
  refine ⟨?_, ?_, ?_⟩
  · norm_num [test_normality, finiteQ, alpha05,
      List.filterMap_cons, List.filterMap_nil]
  · norm_num [oneWayCore, rq1AllNormal, normalityResults, test_normality,
      test_variance_homogeneity, finiteQ, FVal.gt, FVal.lt, passLib, alpha05,
      List.filterMap_cons, List.filterMap_nil]
  · norm_num [rq2AllNormal, test_normality, finiteQ, alpha05,
      List.filterMap_cons, List.filterMap_nil]

theorem rq2AllNormal_lib_agnostic (lib lib2 : StatLib)
    (h : ∀ d : List FVal,
      test_normality lib d alpha05 = test_normality lib2 d alpha05)
    (groups : List (List FVal)) :
    rq2AllNormal lib groups = rq2AllNormal lib2 groups := by
  induction groups with
  | nil => rfl
  | cons g rest ih => simp [rq2AllNormal, h g, ih]

theorem all_map_snd {α β : Type _} (gs : List (α × β)) (F : β → Bool) :
    (gs.map Prod.snd).all F = gs.all fun p => F p.2 := by
  induction gs with
  | nil => rfl
  | cons a t ih => simp_all

theorem rq1_rq2_allNormal_agree (lib : StatLib)
    (gs : List (String × List FVal))
    (h : (normalityResults lib gs).isEmpty = false) :
    rq2AllNormal lib (gs.map Prod.snd) = rq1AllNormal lib gs := by
  unfold rq1AllNormal
  simp only [h, Bool.false_eq_true, if_false]
  rw [rq2AllNormal_eq_all, normalityResults_all_eq, all_map_snd]

theorem stratumGroups_snd (df : List Obs) (s : String) :
    ((uniqueLabels ((df.filter fun o => o.stage_class == s).map
        (·.rider_class))).map fun cls =>
          groupFor (df.filter fun o => o.stage_class == s) cls) =
      (stratumGroups df s).map Prod.snd := by
  simp [stratumGroups, List.map_map]

theorem rq2Stratum_eq_oneWayCore (lib : StatLib) (df : List Obs) (s : String)
    (h : (normalityResults lib (stratumGroups df s)).isEmpty = false) :
    rq2Stratum lib df s =
      { test := (oneWayCore lib (stratumGroups df s)).test
        statistic := (oneWayCore lib (stratumGroups df s)).statistic
        p_value := (oneWayCore lib (stratumGroups df s)).p_value
        significant := (oneWayCore lib (stratumGroups df s)).significant } := by
  simp only [rq2Stratum]
  rw [stratumGroups_snd, rq1_rq2_allNormal_agree lib _ h]
  rcases hc : (rq1AllNormal lib (stratumGroups df s) &&
      (test_variance_homogeneity lib ((stratumGroups df s).map Prod.snd)
        alpha05).equal_variances) with _ | _ <;>
    simp [hc, oneWayCore_test, oneWayCore_statistic, oneWayCore_p_value,
      oneWayCore_significant]

theorem rq2Stratum_significant (lib : StatLib) (df : List Obs) (s : String) :
    (rq2Stratum lib df s).significant =
      FVal.lt (rq2Stratum lib df s).p_value (.num alpha05) := by
  simp only [rq2Stratum]
  split <;> rfl

/-- C4 (amended): the stratified re-analysis runs iff the two-way
interaction p-value is strictly below 0.05; when it runs, every
distinct stage class is analysed by filtering to that level,
rebuilding the groups over `rider_class` and re-running the
assumption checks and test selection, each stratum judged
independently at alpha = 0.05.  The stratum analysis agrees with
the one-way decision sequence of `research_question_1` whenever at
least one normality verdict is available in the stratum, and no
post-hoc procedure is invoked inside strata: the whole of
`research_question_2` is unchanged under any replacement of the
Mann-Whitney and Tukey oracles. -/
theorem c4_stratified_reanalysis (lib : StatLib) (df : List Obs) :
    ((research_question_2 lib df).stratified.isSome = true ↔
      FVal.lt (lib.anova_lm_typ2 df).interaction_p (.num alpha05) = true) ∧
    (FVal.lt (lib.anova_lm_typ2 df).interaction_p (.num alpha05) = true →
      (research_question_2 lib df).stratified =
        some ((stageClasses df).map fun s => (s, rq2Stratum lib df s))) ∧
    (∀ s, (normalityResults lib (stratumGroups df s)).isEmpty = false →
      rq2Stratum lib df s =
        { test := (oneWayCore lib (stratumGroups df s)).test
          statistic := (oneWayCore lib (stratumGroups df s)).statistic
          p_value := (oneWayCore lib (stratumGroups df s)).p_value
          significant := (oneWayCore lib (stratumGroups df s)).significant }) ∧
    (∀ s, (rq2Stratum lib df s).significant =
      FVal.lt (rq2Stratum lib df s).p_value (.num alpha05)) ∧
    (∀ mw tukey,
      research_question_2
        { lib with mannwhitneyu := mw, pairwise_tukeyhsd := tukey } df =
        research_question_2 lib df) := by
  refine ⟨?_, ?_, fun s => rq2Stratum_eq_oneWayCore lib df s,
    fun s => rq2Stratum_significant lib df s, ?_⟩
  · simp only [research_question_2]
    rcases hi : FVal.lt (lib.anova_lm_typ2 df).interaction_p (.num alpha05)
      with _ | _ <;> simp [hi]
  · intro hi
    simp only [research_question_2]
    rw [if_pos hi]
  · intro mw tukey
    have hs : ∀ s, rq2Stratum
        { lib with mannwhitneyu := mw, pairwise_tukeyhsd := tukey } df s =
        rq2Stratum lib df s := by
      intro s
      simp only [rq2Stratum]
      rw [rq2AllNormal_lib_agnostic
        { lib with mannwhitneyu := mw, pairwise_tukeyhsd := tukey } lib
        (fun d => rfl)]
      rfl
    simp only [research_question_2, hs]

theorem c4_witness :
    rq2Stratum passLib
        [⟨.num 1, "A", "S"⟩, ⟨.num 2, "A", "S"⟩, ⟨.num 3, "A", "S"⟩,
         ⟨.num 4, "B", "S"⟩] "S" =
      { test := (oneWayCore passLib (stratumGroups
          [⟨.num 1, "A", "S"⟩, ⟨.num 2, "A", "S"⟩, ⟨.num 3, "A", "S"⟩,
           ⟨.num 4, "B", "S"⟩] "S")).test
        statistic := (oneWayCore passLib (stratumGroups
          [⟨.num 1, "A", "S"⟩, ⟨.num 2, "A", "S"⟩, ⟨.num 3, "A", "S"⟩,
           ⟨.num 4, "B", "S"⟩] "S")).statistic
        p_value := (oneWayCore passLib (stratumGroups
          [⟨.num 1, "A", "S"⟩, ⟨.num 2, "A", "S"⟩, ⟨.num 3, "A", "S"⟩,
           ⟨.num 4, "B", "S"⟩] "S")).p_value
        significant := (oneWayCore passLib (stratumGroups
          [⟨.num 1, "A", "S"⟩, ⟨.num 2, "A", "S"⟩, ⟨.num 3, "A", "S"⟩,
           ⟨.num 4, "B", "S"⟩] "S")).significant } :=
  (c4_stratified_reanalysis passLib
    [⟨.num 1, "A", "S"⟩, ⟨.num 2, "A", "S"⟩, ⟨.num 3, "A", "S"⟩,
     ⟨.num 4, "B", "S"⟩]).2.2.1 "S"
    (by
      norm_num [normalityResults, stratumGroups, uniqueLabels, groupFor,
        test_normality, finiteQ, alpha05, passLib, FVal.gt,
        List.filterMap_cons, List.filterMap_nil, List.filter_cons,
        List.filter_nil]
      decide)

/-- C4 counterexample: a data set whose single stratum contains two
groups of 2 finite values each, so every normality verdict is
unknown.  The interaction p-value of the oracle is below 0.05, the
stratified re-analysis runs, and the stratum analysis of the code
reports the parametric ANOVA, while re-executing the one-way decision
sequence of `research_question_1` on exactly the group set of that
stratum selects Kruskal-Wallis; the stratified record also carries no
post-hoc output. -/
theorem c4_counterexample :
    stratumGroups
        [⟨.num 1, "A", "S"⟩, ⟨.num 2, "A", "S"⟩,
         ⟨.num 3, "B", "S"⟩, ⟨.num 4, "B", "S"⟩] "S" =
      [("A", [.num 1, .num 2]), ("B", [.num 3, .num 4])] ∧
    (research_question_2 passLib
        [⟨.num 1, "A", "S"⟩, ⟨.num 2, "A", "S"⟩,
         ⟨.num 3, "B", "S"⟩, ⟨.num 4, "B", "S"⟩]).stratified =
      some [("S", { test := "ANOVA", statistic := .num 1,
                    p_value := .num (1 / 2), significant := false })] ∧
    (oneWayCore passLib
        [("A", [.num 1, .num 2]), ("B", [.num 3, .num 4])]).test =
      "Kruskal-Wallis" := by
  refine ⟨?_, ?_, ?_⟩
  · norm_num [stratumGroups, uniqueLabels, groupFor,
      List.filter_cons, List.filter_nil]
    decide
  · norm_num [research_question_2, rq2Stratum, rq2AllNormal, stageClasses,
      uniqueLabels, groupFor, test_normality, test_variance_homogeneity,
      finiteQ, FVal.gt, FVal.lt, passLib, alpha05,
      List.filterMap_cons, List.filterMap_nil, List.filter_cons,
      List.filter_nil]
    decide
  · norm_num [oneWayCore, rq1AllNormal, normalityResults, test_normality,
      test_variance_homogeneity, finiteQ, FVal.gt, FVal.lt, passLib, alpha05,
      List.filterMap_cons, List.filterMap_nil]

/-- C8 (amended): neither checking operation raises a descriptive
error.  On an empty sample `test_normality` returns `None`, the same
insufficient-data outcome as any sample with fewer than 3 finite
values; `test_variance_homogeneity` wraps whatever the Levene routine
returns — including NaN on degenerate input — verbatim into an
ordinary verdict, whose `equal_variances` is false because a NaN
p-value fails the strict `> alpha` comparison, silently routing the
analysis to the non-parametric path. -/
theorem c8_no_error_surfaced (lib : StatLib) (gs : List (List FVal)) :
    test_normality lib [] alpha05 = none ∧
    (test_variance_homogeneity lib gs alpha05).statistic =
      (lib.levene gs).1 ∧
    (test_variance_homogeneity lib gs alpha05).p_value =
      (lib.levene gs).2 ∧
    (test_variance_homogeneity lib gs alpha05).equal_variances =
      FVal.gt (lib.levene gs).2 (.num alpha05) ∧
    FVal.gt FVal.nan (.num alpha05) = false ∧
    FVal.lt FVal.nan (.num alpha05) = false := by
  refine ⟨?_, rfl, rfl, rfl, rfl, rfl⟩
  norm_num [test_normality, finiteQ]

/-- C8 counterexample: on the degenerate input of spec Scenario 2
(two zero-variance groups with distinct means, on which the external
Levene routine yields NaN), `test_variance_homogeneity` silently
returns an ordinary verdict carrying a NaN statistic and NaN p-value
instead of failing with a descriptive error, and on the empty sample
`test_normality` returns the insufficient-data `None`, also not an
error. -/
theorem c8_counterexample :
    test_normality nanLib [] alpha05 = none ∧
    test_variance_homogeneity nanLib
        [[.num 1, .num 1, .num 1, .num 1, .num 1],
         [.num 100, .num 100, .num 100, .num 100, .num 100]] alpha05 =
      { test := "Levene\x27s", statistic := .nan, p_value := .nan,
        equal_variances := false, alpha := alpha05 } := by
  refine ⟨?_, ?_⟩
  · norm_num [test_normality, finiteQ]
  · norm_num [test_variance_homogeneity, nanLib, passLib, FVal.gt]

theorem fStatModel_perm {g₁ g₂ : List (List ℚ)} (h : g₁.Perm g₂) :
    fStatModel g₁ = fStatModel g₂ := by
  have h1 : groupsTotalLen g₁ = groupsTotalLen g₂ := by
    unfold groupsTotalLen
    rw [(h.map List.length).sum_eq]
  have h2 : groupsTotalSum g₁ = groupsTotalSum g₂ := by
    unfold groupsTotalSum
    rw [(h.map List.sum).sum_eq]
  have h3 : grandMean g₁ = grandMean g₂ := by
    unfold grandMean
    rw [h1, h2]
  unfold fStatModel
  rw [h1, h3, h.length_eq, (h.map (groupSSB (grandMean g₂))).sum_eq,
    (h.map groupSSW).sum_eq]

/-- C9: the decision pipeline introduces no dependence on group
order.  For any permutation of the ordered group set, and any
statistical library whose one-way, Kruskal-Wallis and Levene routines
are invariant under permutation of their group argument and whose
two-sided Mann-Whitney p-value is symmetric in its two samples (both
properties hold of the real scipy routines, which depend only on the
multiset of groups), the selected test, its statistic, p-value and
significance, and the whole Levene verdict are unchanged, and the
post-hoc p-values form the same multiset (`List.Perm`), only the pair
labels being permuted. -/
theorem c9_group_order_invariance (lib : StatLib)
    (gs₁ gs₂ : List (String × List FVal)) (hperm : gs₁.Perm gs₂)
    (hF : ∀ a b : List (List FVal), a.Perm b →
      lib.f_oneway a = lib.f_oneway b)
    (hK : ∀ a b : List (List FVal), a.Perm b →
      lib.kruskal a = lib.kruskal b)
    (hL : ∀ a b : List (List FVal), a.Perm b →
      lib.levene a = lib.levene b)
    (hMW : ∀ a b : List FVal,
      (lib.mannwhitneyu a b).2 = (lib.mannwhitneyu b a).2) :
    (oneWayCore lib gs₁).test = (oneWayCore lib gs₂).test ∧
    (oneWayCore lib gs₁).statistic = (oneWayCore lib gs₂).statistic ∧
    (oneWayCore lib gs₁).p_value = (oneWayCore lib gs₂).p_value ∧
    (oneWayCore lib gs₁).significant = (oneWayCore lib gs₂).significant ∧
    test_variance_homogeneity lib (gs₁.map Prod.snd) alpha05 =
      test_variance_homogeneity lib (gs₂.map Prod.snd) alpha05 ∧
    ((posthocMW lib gs₁).map fun e => e.p_value).Perm
      ((posthocMW lib gs₂).map fun e => e.p_value) := by
  have hgs : (gs₁.map Prod.snd).Perm (gs₂.map Prod.snd) := hperm.map _
  have hLev : lib.levene (gs₁.map Prod.snd) =
      lib.levene (gs₂.map Prod.snd) := hL _ _ hgs
  have hFeq := hF _ _ hgs
  have hKeq := hK _ _ hgs
  have hvt : test_variance_homogeneity lib (gs₁.map Prod.snd) alpha05 =
      test_variance_homogeneity lib (gs₂.map Prod.snd) alpha05 := by
    simp only [test_variance_homogeneity, hLev]
  have hnr : (normalityResults lib gs₁).Perm (normalityResults lib gs₂) :=
    hperm.filterMap _
  have hAN : rq1AllNormal lib gs₁ = rq1AllNormal lib gs₂ := by
    simp only [rq1AllNormal]
    rw [perm_isEmpty_eq hnr, perm_all_eq hnr]
  have hcond : (rq1AllNormal lib gs₁ &&
      (test_variance_homogeneity lib (gs₁.map Prod.snd)
        alpha05).equal_variances) =
      (rq1AllNormal lib gs₂ &&
        (test_variance_homogeneity lib (gs₂.map Prod.snd)
          alpha05).equal_variances) := by
    rw [hAN, hvt]
  have hp : (oneWayCore lib gs₁).p_value = (oneWayCore lib gs₂).p_value := by
    rw [oneWayCore_p_value, oneWayCore_p_value, hcond, hFeq, hKeq]
  refine ⟨?_, ?_, hp, ?_, hvt, ?_⟩
  · rw [oneWayCore_test, oneWayCore_test, hcond]
  · rw [oneWayCore_statistic, oneWayCore_statistic, hcond, hFeq, hKeq]
  · rw [oneWayCore_significant, oneWayCore_significant, hp]
  · rw [posthocMW_pvalues_eq, posthocMW_pvalues_eq]
    exact pairsOf_map_perm (fun a b => (lib.mannwhitneyu a.2 b.2).2)
      (fun a b => hMW a.2 b.2) hperm

theorem c9_witness :
    (oneWayCore fLib [("A", [.num 1]), ("B", [.num 2])]).p_value =
      (oneWayCore fLib [("B", [.num 2]), ("A", [.num 1])]).p_value :=
  (c9_group_order_invariance fLib
    [("A", [.num 1]), ("B", [.num 2])]
    [("B", [.num 2]), ("A", [.num 1])]
    (List.Perm.swap ("B", [FVal.num 2]) ("A", [FVal.num 1]) [])
    (fun a b hp => by
      simp only [fLib]
      rw [fStatModel_perm (hp.map finiteQ)])
    (fun _ _ _ => rfl) (fun _ _ _ => rfl)
    (fun _ _ => rfl)).2.2.1
